import Mathlib

/-!
Verification development for the `@nulltype/modddel` event-sourcing core.

The development shallowly embeds the core of the library:

* `src/lib/src/aggregateData.ts` — the instance registry (a `WeakMap` from
  aggregate handles to mutable `{state, version, recordedEvents}` records),
  `recordEvent`, `popRecordedEvents` and the replay function `loadAggregate`;
* `src/lib/src/aggregate.ts` — `defineAggregateRoot`'s per-instance closure:
  the nullable internal `instance` reference that `Symbol.dispose` clears and
  the `state` / `stateCopy` accessors handed to actions;
* `src/lib/src/Mutex.ts` — the string-keyed asynchronous mutex;
* the `Repository.save` / `Repository.load` protocol (mutex keys, the
  optimistic-concurrency check, the before/after publication contract);
* `src/utils.ts` — `EventSorter.byVersion` and `areEventsContinous`.

JavaScript numbers used as versions and timestamps are embedded as `Int`.
Mutable records are embedded by explicit state passing; `throw` becomes
`Except`.  JS object identity, where it matters (the `WeakMap` key, the
aliasing of the state object), is embedded by explicit handles/addresses.
-/

namespace Modddel

/-! ### Errors (`src/lib/src/errors.ts`) -/

/-- Embeds the `ModddelError` hierarchy: `InstanceDoesNotExistError` and
`ConcurrencyError`. -/
inductive ModddelError where
  | instanceDoesNotExist
  | concurrencyError
  deriving DecidableEq, Repr

/-! ### Events and instance data (`src/lib/src/types.ts`, `aggregateData.ts`) -/

/-- A recorded aggregate event `{name, payload, occuredAt, version}`. -/
structure AggregateEvent (P : Type) where
  name : String
  payload : P
  occuredAt : Int
  version : Int
  deriving DecidableEq, Repr

/-- The `IEvent` shape passed to `recordEvent`: `{name, payload}`. -/
structure IEvent (P : Type) where
  name : String
  payload : P
  deriving DecidableEq, Repr

/-- The mutable instance data record `{state, version, recordedEvents}`
stored in the `aggregatesData` weak map. -/
structure AggregateData (S P : Type) where
  state : S
  version : Int
  recordedEvents : List (AggregateEvent P)
  deriving DecidableEq, Repr

/-- JS object identity of an aggregate instance: the `WeakMap` keys objects by
identity, so a handle is embedded as an abstract identifier. -/
abbrev Handle := Nat

/-- The `aggregatesData` weak map, `WeakMap<AggregateInstance, AggregateData>`.
An entry stays present while the keying handle is still reachable (garbage
collection only reclaims unreachable keys, and every call below holds the
handle it passes). -/
abbrev AggregatesData (S P : Type) := Handle → Option (AggregateData S P)

/-- Overwrites one entry of the weak map. -/
def setData (wm : AggregatesData S P) (h : Handle) (d : AggregateData S P) :
    AggregatesData S P :=
  fun h' => if h' = h then some d else wm h'

/-- `createInstanceData(instance, state)`: registers a fresh record
`{state, version: 0, recordedEvents: []}`. -/
def createInstanceData (wm : AggregatesData S P) (h : Handle) (state : S) :
    AggregatesData S P :=
  setData wm h { state := state, version := 0, recordedEvents := [] }

/-- `aggregateData(instance)`: `instance && aggregatesData.get(instance)`,
throwing `InstanceDoesNotExistError` when the reference is `null` or the map
has no entry.  The nullable argument embeds `AggregateInstance | null`. -/
def aggregateData (wm : AggregatesData S P) (inst : Option Handle) :
    Except ModddelError (AggregateData S P) :=
  match inst with
  | none => .error .instanceDoesNotExist
  | some h =>
    match wm h with
    | none => .error .instanceDoesNotExist
    | some data => .ok data

/-- `recordEvent(instance, event)`: looks the record up (throwing
`InstanceDoesNotExistError` on a null reference or missing entry), increments
`version`, and appends `{name, payload, occuredAt: Date.now(), version}` to
`recordedEvents`.  `now` stands for `Date.now()`. -/
def recordEvent (wm : AggregatesData S P) (inst : Option Handle)
    (event : IEvent P) (now : Int) :
    Except ModddelError (AggregatesData S P) :=
  match inst with
  | none => .error .instanceDoesNotExist
  | some h =>
    match wm h with
    | none => .error .instanceDoesNotExist
    | some data =>
      .ok (setData wm h
        { data with
          version := data.version + 1
          recordedEvents := data.recordedEvents ++
            [{ name := event.name, payload := event.payload,
               occuredAt := now, version := data.version + 1 }] })

/-- `popRecordedEvents(instance)`: returns the recorded events and resets the
record's `recordedEvents` to `[]`; throws `InstanceDoesNotExistError` when the
weak map has no entry for the handle.  (The source signature takes a non-null
instance, so the argument is a bare handle.) -/
def popRecordedEvents (wm : AggregatesData S P) (h : Handle) :
    Except ModddelError (List (AggregateEvent P) × AggregatesData S P) :=
  match wm h with
  | none => .error .instanceDoesNotExist
  | some data =>
    .ok (data.recordedEvents, setData wm h { data with recordedEvents := [] })

/-! ### The instance closure (`src/lib/src/aggregate.ts`)

`definition.create(id)` closes over a mutable local
`let instance: AggregateInstance | null = { ... }` and the disposal method
`[Symbol.dispose]() { instance = null }` sets that local to `null`.  The
weak-map entry itself is not removed by disposal.  Operations bound inside the
closure (the actions' `recordThat`, the `state` accessor) reach the registry
through this nullable internal reference. -/

/-- The nullable internal `instance` reference of one created aggregate. -/
abbrev InstanceRef := Option Handle

/-- `[Symbol.dispose]() { instance = null }`: clears the internal reference
(and touches nothing else — in particular not the weak map). -/
def symbolDispose (_ref : InstanceRef) : InstanceRef := none

/-! ### State aliasing in the action context (`src/lib/src/aggregate.ts`)

Inside `definition.create(id)`:

```
const state = () => aggregateData(instance).state
// TODO: implement possibility to clone the state
const stateCopy = (): StateT => state()
```

and the action context exposes `state: () => stateCopy()`.  JS object values
are references into a heap, so this fragment is embedded with an explicit
heap: the record's `state` field holds the address of the state object, and
mutating a field of the state object is a heap write at that address. -/

/-- Address of a JS object in the heap. -/
abbrev Addr := Nat

/-- A heap of state objects, mapping addresses to object values. -/
abbrev Heap (V : Type) := Addr → V

/-- A heap write: mutating the object stored at address `a`. -/
def writeHeap (h : Heap V) (a : Addr) (v : V) : Heap V :=
  fun a' => if a' = a then v else h a'

/-- The instance data record, viewed at the level where the `state` field is a
reference to the state object (the shape `aggregatesData` actually stores for
an object-valued `StateT`). -/
structure AggregateDataRef where
  state : Addr
  version : Int
  deriving DecidableEq, Repr

/-- The closure-local accessor `state = () => aggregateData(instance).state`:
reading the field yields the reference stored in the record. -/
def stateRead (d : AggregateDataRef) : Addr := d.state

/-- `stateCopy = (): StateT => state()` — the accessor handed to actions as
`this.state()`.  It returns exactly what `state()` returns (the `TODO:
implement possibility to clone the state` comment marks cloning as not
implemented). -/
def stateCopy (d : AggregateDataRef) : Addr := stateRead d

/-! ### The named mutex (`src/lib/src/Mutex.ts`)

`Mutex` keeps `#locks : Set<string>` and `#queue : Record<string, QueueItem[]>`.
`aqquire(name)` resolves immediately (adding `name` to `#locks`) when `name`
is unlocked, else pushes a resolver onto `#queue[name]`.  The release closure
deletes the lock, shifts `#queue[name]`, and when a waiter was queued resolves
it, re-adding the lock.  Waiting callers are identified by tickets (`Nat`). -/

/-- The mutex state: the `#locks` set as a characteristic function and the
per-key FIFO `#queue` (front = oldest waiter), holding waiter tickets. -/
structure MutexState where
  locks : String → Bool
  queue : String → List Nat

/-- A mutex with no locks and no waiters. -/
def MutexState.initial : MutexState :=
  { locks := fun _ => false, queue := fun _ => [] }

/-- `aqquire(name)` observed at the promise executor: when `#locks` has
`name`, push the caller (ticket `t`) onto `#queue[name]` and do not resolve
(`false` — the caller waits); otherwise add `name` to `#locks` and resolve
immediately (`true` — the caller holds the lock). -/
def aqquire (s : MutexState) (name : String) (t : Nat) : MutexState × Bool :=
  if s.locks name then
    ({ s with queue := fun k => if k = name then s.queue k ++ [t] else s.queue k },
     false)
  else
    ({ s with locks := fun k => if k = name then true else s.locks k }, true)

/-- The release closure: delete `name` from `#locks`, shift `#queue[name]`;
when a waiter was dequeued, its `resolve` re-adds `name` to `#locks` and the
waiter proceeds (returned as `some ticket`). -/
def release (s : MutexState) (name : String) : MutexState × Option Nat :=
  let s₁ : MutexState :=
    { s with locks := fun k => if k = name then false else s.locks k }
  match s₁.queue name with
  | [] => (s₁, none)
  | t :: rest =>
    ({ locks := fun k => if k = name then true else s₁.locks k,
       queue := fun k => if k = name then rest else s₁.queue k }, some t)

/-! ### Repository mutex keys (`Repository.save` / `Repository.load`)

`load` acquires the mutex with the template
`` `${aggregateDefinition.name()}:${id}` ``.

`save` acquires it with `` `${aggregate.aggregateName()}:${aggregate.id}` `` —
note `aggregate.id`, the method itself, not the call `aggregate.id()` (which
the very same function uses a few lines below when building stream events).
A JS template literal stringifies the interpolated function to its source
text, and every instance produced by `definition.create(id)` carries the same
method text `id() \x7b return id \x7d`, independent of the actual id value. -/

/-- The source text `String(aggregate.id)` of the `id` method of an instance
built by `definition.create` — one fixed string, the same for every instance
and every id. -/
def idMethodText : String := "id() \x7b\n      return id\n    \x7d"

/-- The key `save` actually acquires:
`` `${aggregate.aggregateName()}:${aggregate.id}` ``.  The instance's id is a
parameter only to document that the key does not depend on it. -/
def saveMutexKey (aggregateName : String) (_id : String) : String :=
  aggregateName ++ ":" ++ idMethodText

/-- The key `load` acquires: `` `${aggregateDefinition.name()}:${id}` ``. -/
def loadMutexKey (aggregateName id : String) : String :=
  aggregateName ++ ":" ++ id

/-! ### The repository save protocol (`Repository.save`)

The store and the event emitter are external collaborators; `save` is
embedded as a function of the record of the (live, non-disposed) aggregate,
the store's answer to `getAggregateVersion`, whether the store supports
snapshots, and the outcomes of the subscribers on the two notification
channels.  The emitter delivers to subscribers sequentially, awaiting each,
so an emission fails with the first subscriber failure. -/

/-- A stream event as written to the store: the recorded event plus the
aggregate id and type. -/
structure IStreamEvent (P : Type) where
  aggregateId : String
  aggregateType : String
  name : String
  occuredAt : Int
  payload : P
  version : Int
  deriving DecidableEq, Repr

/-- `aggregateEventToStreamEvent(id, aggregateName, event)`. -/
def aggregateEventToStreamEvent (id aggregateName : String)
    (event : AggregateEvent P) : IStreamEvent P :=
  { aggregateId := id
    aggregateType := aggregateName
    name := event.name
    occuredAt := event.occuredAt
    payload := event.payload
    version := event.version }

/-- Sequential, awaited delivery of one emitted notification to its
subscribers (the `@nulltype/event-emitter` collaborator as described at the
interface boundary): each subscriber yields `Except ε Unit`, and the emission
fails with the first failure. -/
def emitSeq (results : List (Except ε Unit)) : Except ε Unit :=
  match results with
  | [] => .ok ()
  | .ok () :: rest => emitSeq rest
  | .error e :: _ => .error e

/-- A snapshot `{version, state}`. -/
structure ISnapshot (S : Type) where
  version : Int
  state : S
  deriving DecidableEq, Repr

/-- How one `save` call ends for its caller. -/
inductive SaveOutcome (ε : Type) where
  | completed
  | emitError (e : ε)
  | concurrencyError
  deriving DecidableEq, Repr

/-- What one `save` call did: which store writes happened, and the result of
the un-awaited `eventsPublished` emission (the dropped promise). -/
structure SaveEffects (ε S P : Type) where
  eventsSaved : Option (List (IStreamEvent P))
  snapshotSaved : Option (ISnapshot S)
  afterEmit : Option (Except ε Unit)

/-- `Repository.save(aggregate)` after the mutex is held, for a live
aggregate whose record is `d`:

1. `popRecordedEvents(aggregate)`;
2. return when nothing was recorded;
3. map the recorded events to stream events;
4. `await this.emitter.emit('eventsRecorded', streamEvents)` — a subscriber
   failure propagates out of `save`;
5. compare `getAggregateVersion` with `recordedEvents[0].version - 1` and
   throw `ConcurrencyError` on mismatch;
6. `await this.store.saveEvents(streamEvents)`;
7. when the store is a snapshot store, `saveSnapshot` with the last recorded
   version and the current live state;
8. `this.emitter.emit('eventsPublished', streamEvents)` — not awaited, so its
   result never reaches the caller.

Returns the outcome, the effects, and the post-pop record. -/
def Repository.save (aggregateName id : String) (d : AggregateData S P)
    (beforeResults afterResults : List (Except ε Unit))
    (currentVersion : Int) (hasSnapshotStore : Bool) :
    SaveOutcome ε × SaveEffects ε S P × AggregateData S P :=
  let recordedEvents := d.recordedEvents
  let d' : AggregateData S P := { d with recordedEvents := [] }
  match recordedEvents with
  | [] =>
    (.completed, { eventsSaved := none, snapshotSaved := none, afterEmit := none }, d')
  | first :: rest =>
    let streamEvents :=
      (first :: rest).map (aggregateEventToStreamEvent id aggregateName)
    match emitSeq beforeResults with
    | .error e =>
      (.emitError e,
       { eventsSaved := none, snapshotSaved := none, afterEmit := none }, d')
    | .ok () =>
      if currentVersion ≠ first.version - 1 then
        (.concurrencyError,
         { eventsSaved := none, snapshotSaved := none, afterEmit := none }, d')
      else
        (.completed,
         { eventsSaved := some streamEvents
           snapshotSaved :=
             if hasSnapshotStore then
               some { version := (rest.getLastD first).version, state := d'.state }
             else none
           afterEmit := some (emitSeq afterResults) }, d')

/-! ### Event utilities (`src/utils.ts`) -/

/-- The comparator `EventSorter.byVersion = (a, b) => a.version - b.version`
as the Boolean order it sorts by (ascending by `version`; `toSorted` is a
stable sort, embedded below by the stable `List.mergeSort`). -/
def byVersionLE (a b : AggregateEvent P) : Bool :=
  a.version ≤ b.version

/-- The adjacent-pair scan inside `areEventsContinous`: the loop returns
`false` at the first index `i` with `versions[i - 1] != versions[i] - 1`. -/
def versionsChain : List Int → Bool
  | a :: b :: rest => a = b - 1 && versionsChain (b :: rest)
  | _ => true

/-- `areEventsContinous(sortedEvents)`: `true` for fewer than two events,
otherwise every adjacent pair of versions must satisfy
`versions[i - 1] == versions[i] - 1`. -/
def areEventsContinous (sortedEvents : List (AggregateEvent P)) : Bool :=
  if sortedEvents.length < 2 then true
  else versionsChain (sortedEvents.map (fun e => e.version))

/-! ### The replay engine (`loadAggregate` in `src/lib/src/aggregateData.ts`)

The aggregate definition's options are embedded by the pieces `loadAggregate`
reads: the initial state and the optional event-handler table
(`options.events`).  A handler `options.events[name]` is invoked as
`handler.call({state: data.state}, {name, payload})` and mutates the state;
it is embedded as a state transformer `S → IEvent P → S`. -/

/-- The slice of `AggregateOptions` that replay uses: `options.initialState()`
and `options.events` (absent when the aggregate defines no events at all). -/
structure AggregateOptionsM (S P : Type) where
  name : String
  initialState : S
  events : Option (String → Option (S → IEvent P → S))

/-- The distinct failures `loadAggregate` throws. -/
inductive ReplayError where
  | noHandlers
  | startOffset
  | notContinuous
  | handlerMissing (name : String)
  deriving DecidableEq, Repr

/-- The filter step of `loadAggregate`: with a snapshot, keep only events with
`event.version > snapshot.version`; without one, keep all events. -/
def filteredEvents (events : List (AggregateEvent P))
    (snapshot : Option (ISnapshot S)) : List (AggregateEvent P) :=
  match snapshot with
  | some s => events.filter (fun event => s.version < event.version)
  | none => events

/-- `newEvents` in `loadAggregate`: the filtered events sorted (stably)
ascending by version, `(...).toSorted(EventSorter.byVersion)`. -/
def newEventsOf (events : List (AggregateEvent P))
    (snapshot : Option (ISnapshot S)) : List (AggregateEvent P) :=
  (filteredEvents events snapshot).mergeSort byVersionLE

/-- `snapshot?.version ?? 0`. -/
def snapshotBase (snapshot : Option (ISnapshot S)) : Int :=
  match snapshot with
  | some s => s.version
  | none => 0

/-- The replay loop of `loadAggregate`: for each event in order, look its
handler up (failing with the handler-missing error when absent), apply it to
the state, then set the record's version to the event's version. -/
def applyEvents (handlers : String → Option (S → IEvent P → S))
    (data : AggregateData S P) :
    List (AggregateEvent P) → Except ReplayError (AggregateData S P)
  | [] => .ok data
  | event :: rest =>
    match handlers event.name with
    | none => .error (.handlerMissing event.name)
    | some handler =>
      applyEvents handlers
        { data with
          state := handler data.state { name := event.name, payload := event.payload }
          version := event.version } rest

/-- `loadAggregate(aggregateName, id, events, snapshot)` for a definition with
options `options`:

1. create a fresh instance (record `{state: initialState, version: 0,
   recordedEvents: []}`);
2. with a snapshot, overwrite `version` and `state` from it;
3. return when `events` is empty;
4. fail with the no-handlers error when `options.events` is undefined;
5. filter (version > snapshot version) and stable-sort by version;
6. return when nothing remains;
7. fail with the start-offset error when the first remaining version is not
   `(snapshot?.version ?? 0) + 1`;
8. fail with the continuity error when `areEventsContinous` rejects;
9. apply each event's handler in order, setting the version as it goes.

Returns the final instance data record. -/
def loadAggregate (options : AggregateOptionsM S P)
    (events : List (AggregateEvent P)) (snapshot : Option (ISnapshot S)) :
    Except ReplayError (AggregateData S P) :=
  let data₀ : AggregateData S P :=
    { state := options.initialState, version := 0, recordedEvents := [] }
  let data : AggregateData S P :=
    match snapshot with
    | some s => { data₀ with version := s.version, state := s.state }
    | none => data₀
  match events with
  | [] => .ok data
  | e₀ :: es =>
    match options.events with
    | none => .error .noHandlers
    | some handlers =>
      match newEventsOf (e₀ :: es) snapshot with
      | [] => .ok data
      | first :: rest =>
        if first.version ≠ snapshotBase snapshot + 1 then
          .error .startOffset
        else if ¬ areEventsContinous (first :: rest) then
          .error .notContinuous
        else
          applyEvents handlers data (first :: rest)

/-! ## Helper lemmas -/

/-- Looking up the handle just written. -/
theorem setData_self (wm : AggregatesData S P) (h : Handle)
    (d : AggregateData S P) : setData wm h d h = some d := by
  simp [setData]

/-- A sequentially delivered emission with a failing subscriber fails. -/
theorem emitSeq_error_of_mem {results : List (Except ε Unit)} {e : ε}
    (hmem : Except.error e ∈ results) :
    ∃ e', emitSeq results = Except.error e' := by
  induction results with
  | nil => cases hmem
  | cons r rest ih =>
    cases r with
    | error e₀ => exact ⟨e₀, rfl⟩
    | ok u =>
      cases u
      simp only [List.mem_cons] at hmem
      rcases hmem with h | h
      · simp at h
      · exact ih h

/-- A list already sorted ascending by version is unchanged by the sort step
of the replay. -/
theorem mergeSort_byVersion_of_sorted {l : List (AggregateEvent P)}
    (h : l.Pairwise fun a b => a.version ≤ b.version) :
    l.mergeSort byVersionLE = l :=
  List.mergeSort_of_sorted (h.imp fun hab => by
    simpa [byVersionLE] using hab)

/-- The record `loadAggregate` starts replay from: the initial state at
version `0`, overwritten by the snapshot when one is given. -/
def initialData (options : AggregateOptionsM S P)
    (snapshot : Option (ISnapshot S)) : AggregateData S P :=
  match snapshot with
  | some s => { state := s.state, version := s.version, recordedEvents := [] }
  | none => { state := options.initialState, version := 0, recordedEvents := [] }

/-- Replay of an empty history returns the start record unchanged. -/
theorem loadAggregate_nil (options : AggregateOptionsM S P)
    (snapshot : Option (ISnapshot S)) :
    loadAggregate options [] snapshot = Except.ok (initialData options snapshot) := by
  cases snapshot <;> rfl

/-- Unfolding of `loadAggregate` on a non-empty history for a definition with
an event-handler table. -/
theorem loadAggregate_cons (options : AggregateOptionsM S P)
    (handlers : String → Option (S → IEvent P → S))
    (e₀ : AggregateEvent P) (es : List (AggregateEvent P))
    (snapshot : Option (ISnapshot S))
    (hh : options.events = some handlers) :
    loadAggregate options (e₀ :: es) snapshot =
      match newEventsOf (e₀ :: es) snapshot with
      | [] => Except.ok (initialData options snapshot)
      | first :: rest =>
        if first.version ≠ snapshotBase snapshot + 1 then
          Except.error ReplayError.startOffset
        else if ¬ areEventsContinous (first :: rest) then
          Except.error ReplayError.notContinuous
        else applyEvents handlers (initialData options snapshot) (first :: rest) := by
  simp only [loadAggregate, hh]
  cases snapshot <;> rfl

/-- The replay loop only ever fails with a handler-missing error. -/
theorem applyEvents_error_is_handlerMissing
    (handlers : String → Option (S → IEvent P → S)) :
    ∀ (l : List (AggregateEvent P)) (data : AggregateData S P)
      (err : ReplayError), applyEvents handlers data l = Except.error err →
      ∃ n, err = ReplayError.handlerMissing n
  | [], _, _, heq => by cases heq
  | e :: rest, data, err, heq => by
    cases hh : handlers e.name with
    | none =>
      simp only [applyEvents, hh] at heq
      exact ⟨e.name, (Except.error.injEq .. ▸ heq).symm⟩
    | some handler =>
      simp only [applyEvents, hh] at heq
      exact applyEvents_error_is_handlerMissing handlers rest _ err heq

/-- When every event's handler is defined, the replay loop succeeds and the
final version is the last replayed event's version (or the start version for
an empty run). -/
theorem applyEvents_ok
    (handlers : String → Option (S → IEvent P → S)) :
    ∀ (l : List (AggregateEvent P)) (data : AggregateData S P),
      (∀ e ∈ l, (handlers e.name).isSome) →
      ∃ d', applyEvents handlers data l = Except.ok d' ∧
        d'.version = (l.map fun e => e.version).getLastD data.version
  | [], data, _ => ⟨data, rfl, rfl⟩
  | e :: rest, data, hall => by
    obtain ⟨handler, hh⟩ :=
      Option.isSome_iff_exists.mp (hall e (List.mem_cons_self e rest))
    obtain ⟨d', hd', hv⟩ :=
      applyEvents_ok handlers rest
        { data with
          state := handler data.state { name := e.name, payload := e.payload }
          version := e.version }
        (fun x hx => hall x (List.mem_cons_of_mem e hx))
    refine ⟨d', ?_, ?_⟩
    · simp only [applyEvents, hh]
      exact hd'
    · rw [hv, List.map_cons, List.getLastD_cons]

/-- The contiguous run of versions `start, start + 1, …, start + k - 1`. -/
def versionSeq (start : Int) : Nat → List Int
  | 0 => []
  | k + 1 => start :: versionSeq (start + 1) k

/-- Members of a contiguous run are at least its start. -/
theorem le_of_mem_versionSeq :
    ∀ (k : Nat) (start b : Int), b ∈ versionSeq start k → start ≤ b
  | 0, _, _, hb => by cases hb
  | k + 1, start, b, hb => by
    rcases List.mem_cons.mp hb with rfl | hb
    · exact le_refl b
    · exact le_trans (by omega) (le_of_mem_versionSeq k (start + 1) b hb)

/-- A contiguous run is strictly increasing. -/
theorem versionSeq_pairwise :
    ∀ (k : Nat) (start : Int), (versionSeq start k).Pairwise (· < ·)
  | 0, _ => List.Pairwise.nil
  | k + 1, start => by
    refine List.pairwise_cons.mpr ⟨fun b hb => ?_, versionSeq_pairwise k (start + 1)⟩
    have := le_of_mem_versionSeq k (start + 1) b hb
    omega

/-- A contiguous run passes the adjacent-pair scan. -/
theorem versionsChain_versionSeq :
    ∀ (k : Nat) (start : Int), versionsChain (versionSeq start k) = true
  | 0, _ => rfl
  | 1, _ => rfl
  | k + 2, start => by
    have ih := versionsChain_versionSeq (k + 1) (start + 1)
    simp only [versionSeq, versionsChain] at ih ⊢
    rw [ih]
    simp

/-- The last element of a non-empty contiguous run of length `k + 1` starting
at `start` is `start + k`. -/
theorem versionSeq_getLastD :
    ∀ (k : Nat) (start d : Int),
      (versionSeq start (k + 1)).getLastD d = start + k
  | 0, start, d => by simp [versionSeq]
  | k + 1, start, d => by
    have ih := versionSeq_getLastD k (start + 1) start
    simp only [versionSeq] at ih ⊢
    rw [List.getLastD_cons, ih]
    push_cast
    ring

/-- A history whose versions form the adjacent-pair chain is continuous. -/
theorem areEventsContinous_of_chain {l : List (AggregateEvent P)}
    (h : versionsChain (l.map fun e => e.version) = true) :
    areEventsContinous l = true := by
  by_cases hlen : l.length < 2 <;> simp [areEventsContinous, hlen, h]

/-- Unfolding of `loadAggregate` on a non-empty history whose
filtered-and-sorted event list is known and non-empty. -/
theorem loadAggregate_newEvents_cons (options : AggregateOptionsM S P)
    (handlers : String → Option (S → IEvent P → S))
    (e₀ first : AggregateEvent P) (es rest : List (AggregateEvent P))
    (snapshot : Option (ISnapshot S))
    (hh : options.events = some handlers)
    (hnew : newEventsOf (e₀ :: es) snapshot = first :: rest) :
    loadAggregate options (e₀ :: es) snapshot =
      if first.version ≠ snapshotBase snapshot + 1 then
        Except.error ReplayError.startOffset
      else if ¬ areEventsContinous (first :: rest) then
        Except.error ReplayError.notContinuous
      else applyEvents handlers (initialData options snapshot) (first :: rest) := by
  rw [loadAggregate_cons options handlers e₀ es snapshot hh, hnew]

/-- With no snapshot, the filtered-and-sorted list of an already-sorted
history is the history itself. -/
theorem newEventsOf_none_of_sorted {l : List (AggregateEvent P)}
    (h : l.Pairwise fun a b => a.version ≤ b.version) :
    newEventsOf l (none : Option (ISnapshot S)) = l := by
  unfold newEventsOf filteredEvents
  exact mergeSort_byVersion_of_sorted h

/-- The replay loop cannot produce the start-offset or continuity error. -/
theorem applyEvents_ne_validation_errors
    (handlers : String → Option (S → IEvent P → S))
    (l : List (AggregateEvent P)) (data : AggregateData S P) :
    applyEvents handlers data l ≠ Except.error ReplayError.startOffset ∧
    applyEvents handlers data l ≠ Except.error ReplayError.notContinuous := by
  constructor <;> intro heq <;>
    obtain ⟨n, hn⟩ := applyEvents_error_is_handlerMissing handlers l data _ heq <;>
    cases hn

/-! ## Claim theorems -/

/-- The concrete weak map used in the disposal counterexample: one live record
for handle `0` holding one recorded event. -/
def wmC2 : AggregatesData Int Int :=
  setData (fun _ => none) 0
    { state := 7, version := 1,
      recordedEvents := [{ name := "E", payload := 1, occuredAt := 0, version := 1 }] }

/-- C2, counterexample: the claim says that after the handle's disposal every
registry operation given that handle fails with `InstanceDoesNotExist`.  But
`[Symbol.dispose]` only nulls the closure-internal reference; it does not
remove the weak-map entry, so `popRecordedEvents` called with the retained
handle still succeeds, returning the recorded events. -/
theorem dispose_then_pop_still_succeeds :
    symbolDispose (some 0) = none ∧
    popRecordedEvents wmC2 0 ≠ Except.error ModddelError.instanceDoesNotExist ∧
    (popRecordedEvents wmC2 0).toOption.map Prod.fst =
      some [{ name := "E", payload := 1, occuredAt := 0, version := 1 }] := by
  refine ⟨rfl, ?_, rfl⟩
  simp [popRecordedEvents, wmC2, setData]

/-- C2, amended: disposal nulls the internal instance reference, so the
registry operations that reach the registry through it — `aggregateData`
(get) and `recordEvent`, as the instance's bound actions invoke them — fail
with `InstanceDoesNotExist` after disposal; but disposal does not remove the
weak-map record, so the registry operations called directly with a retained
handle whose record is present still succeed. -/
theorem dispose_nulls_reference_but_keeps_record
    (wm : AggregatesData S P) (ref : InstanceRef) (e : IEvent P) (now : Int)
    (h : Handle) (d : AggregateData S P) (hlive : wm h = some d) :
    aggregateData wm (symbolDispose ref) =
      Except.error ModddelError.instanceDoesNotExist ∧
    recordEvent wm (symbolDispose ref) e now =
      Except.error ModddelError.instanceDoesNotExist ∧
    popRecordedEvents wm h =
      Except.ok (d.recordedEvents, setData wm h { d with recordedEvents := [] }) := by
  refine ⟨rfl, rfl, ?_⟩
  simp [popRecordedEvents, hlive]

/-- Witness for the amended C2 theorem at the concrete weak map `wmC2`. -/
theorem dispose_nulls_reference_but_keeps_record_witness :
    aggregateData wmC2 (symbolDispose (some 0)) =
      Except.error ModddelError.instanceDoesNotExist ∧
    recordEvent wmC2 (symbolDispose (some 0)) { name := "F", payload := 2 } 5 =
      Except.error ModddelError.instanceDoesNotExist ∧
    popRecordedEvents wmC2 0 =
      Except.ok
        ([{ name := "E", payload := 1, occuredAt := 0, version := 1 }],
         setData wmC2 0
           { state := 7, version := 1, recordedEvents := [] }) :=
  dispose_nulls_reference_but_keeps_record wmC2 (some 0)
    { name := "F", payload := 2 } 5 0
    { state := 7, version := 1,
      recordedEvents := [{ name := "E", payload := 1, occuredAt := 0, version := 1 }] }
    (by simp [wmC2, setData])

/-- C3, counterexample: the claim says mutating the object returned by the
actions' `this.state()` accessor does not change the state stored in the
record.  With the heap of state objects all holding `0` and a record whose
state field references address `0`, writing `42` through the address
`stateCopy` returns makes the stored state read back `42`, no longer its
original value `0`. -/
theorem state_accessor_aliases_stored_state :
    stateCopy { state := 0, version := 1 } = 0 ∧
    writeHeap (fun _ => (0 : Int)) (stateCopy { state := 0, version := 1 }) 42
      (AggregateDataRef.state { state := 0, version := 1 }) = 42 ∧
    (fun _ => (0 : Int)) (AggregateDataRef.state { state := 0, version := 1 }) = 0 := by
  exact ⟨rfl, rfl, rfl⟩

/-- C3, amended: `this.state()` (`stateCopy`) returns the live reference held
in the record's state field — cloning is not implemented — so a mutation
through the returned reference is visible in the state stored in the
instance's data record. -/
theorem state_accessor_returns_live_reference
    (d : AggregateDataRef) (h : Heap V) (v : V) :
    stateCopy d = d.state ∧
    writeHeap h (stateCopy d) v d.state = v := by
  refine ⟨rfl, ?_⟩
  simp [writeHeap, stateCopy, stateRead]

/-- C1: `Repository.save` interpolates the `id` method itself
(`${aggregate.id}`, not `${aggregate.id()}`) into its mutex key, so the key
it acquires stringifies the method's source text.  Evaluated at the failing
input (aggregate type `Cart`, ids `cart-1` and `cart-2`): the key save
acquires differs from the key load acquires for the same identity, and saves
of two different ids of the same type acquire the same key — contradicting
the claim that save and load share the key `aggregateName:id` and that
different ids never share a key. -/
theorem save_mutex_key_uses_stringified_method :
    saveMutexKey "Cart" "cart-1" ≠ loadMutexKey "Cart" "cart-1" ∧
    saveMutexKey "Cart" "cart-1" = saveMutexKey "Cart" "cart-2" ∧
    loadMutexKey "Cart" "cart-1" ≠ loadMutexKey "Cart" "cart-2" := by
  refine ⟨?_, rfl, ?_⟩ <;> decide

/-- C10: popping the recorded events mutates only the `recordedEvents` field
— the record keeps its version and state — and an event recorded right after
the pop is stamped with the pre-pop version plus one, continuing the popped
batch's sequence rather than restarting at 1. -/
theorem pop_keeps_version_and_state
    (wm : AggregatesData S P) (h : Handle) (d : AggregateData S P)
    (e : IEvent P) (now : Int) (hlive : wm h = some d) :
    ∃ wm', popRecordedEvents wm h = Except.ok (d.recordedEvents, wm') ∧
      wm' h = some { d with recordedEvents := [] } ∧
      ∃ wm'', recordEvent wm' (some h) e now = Except.ok wm'' ∧
        wm'' h = some
          { state := d.state, version := d.version + 1,
            recordedEvents :=
              [{ name := e.name, payload := e.payload, occuredAt := now,
                 version := d.version + 1 }] } := by
  refine ⟨setData wm h { d with recordedEvents := [] }, ?_, setData_self .., ?_⟩
  · simp [popRecordedEvents, hlive]
  · refine ⟨setData (setData wm h { d with recordedEvents := [] }) h
      { state := d.state, version := d.version + 1,
        recordedEvents :=
          [{ name := e.name, payload := e.payload, occuredAt := now,
             version := d.version + 1 }] }, ?_, setData_self ..⟩
    have hw := setData_self wm h { d with recordedEvents := [] }
    simp only [recordEvent, hw]
    rfl

/-- The concrete record used in the C10 witness: version 5, one pending event. -/
def dC10 : AggregateData Int Int :=
  { state := 3, version := 5,
    recordedEvents := [{ name := "E", payload := 9, occuredAt := 1, version := 5 }] }

/-- The concrete weak map used in the C10 witness. -/
def wmC10 : AggregatesData Int Int := setData (fun _ => none) 0 dC10

/-- Witness for the C10 theorem at a concrete record with version 5. -/
theorem pop_keeps_version_and_state_witness :
    ∃ wm', popRecordedEvents wmC10 0 = Except.ok (dC10.recordedEvents, wm') ∧
      wm' 0 = some { dC10 with recordedEvents := [] } ∧
      ∃ wm'', recordEvent wm' (some 0) { name := "F", payload := 2 } 7 = Except.ok wm'' ∧
        wm'' 0 = some
          { state := dC10.state, version := dC10.version + 1,
            recordedEvents :=
              [{ name := "F", payload := 2, occuredAt := 7,
                 version := dC10.version + 1 }] } :=
  pop_keeps_version_and_state wmC10 0 dC10 { name := "F", payload := 2 } 7 rfl

/-- C9: in any mutex state, (i) an acquisition is granted immediately exactly
when its own key is unlocked — the lock status and waiters of every other key
are irrelevant, so an acquisition never waits on the holder or waiters of a
different key; (ii) a blocked acquisition joins the tail of its key's queue
and a release grants exactly the head (the oldest waiter) of its key's queue,
so grants on one key follow strict first-come-first-served arrival order;
(iii) operations on one key leave every other key's lock and queue untouched. -/
theorem mutex_fifo_and_key_independence (s : MutexState)
    (name other : String) (t : Nat) (hother : other ≠ name) :
    ((aqquire s name t).2 = !(s.locks name)) ∧
    ((aqquire s name t).1.queue name =
      if s.locks name then s.queue name ++ [t] else s.queue name) ∧
    ((aqquire s name t).1.locks name = true) ∧
    ((release s name).2 = (s.queue name).head?) ∧
    ((release s name).1.queue name = (s.queue name).tail) ∧
    ((aqquire s name t).1.locks other = s.locks other) ∧
    ((aqquire s name t).1.queue other = s.queue other) ∧
    ((release s name).1.locks other = s.locks other) ∧
    ((release s name).1.queue other = s.queue other) := by
  cases hl : s.locks name <;>
    cases hq : s.queue name <;>
      simp_all [aqquire, release, hother]

/-- The concrete mutex state for the C9 witness: key `a` locked with waiter
ticket 7 queued, key `b` free. -/
def mutexS₀ : MutexState :=
  { locks := fun k => k == "a", queue := fun k => if k == "a" then [7] else [] }

/-- Witness for the C9 theorem: key `a` locked with one waiter, evaluated
against an acquisition by ticket 9 and a release, with `b` the other key. -/
theorem mutex_fifo_and_key_independence_witness :
    ("b" : String) ≠ "a" ∧
    (((aqquire mutexS₀ "a" 9).2 = !(mutexS₀.locks "a")) ∧
     ((aqquire mutexS₀ "a" 9).1.queue "a" =
       if mutexS₀.locks "a" then mutexS₀.queue "a" ++ [9] else mutexS₀.queue "a") ∧
     ((aqquire mutexS₀ "a" 9).1.locks "a" = true) ∧
     ((release mutexS₀ "a").2 = (mutexS₀.queue "a").head?) ∧
     ((release mutexS₀ "a").1.queue "a" = (mutexS₀.queue "a").tail) ∧
     ((aqquire mutexS₀ "a" 9).1.locks "b" = mutexS₀.locks "b") ∧
     ((aqquire mutexS₀ "a" 9).1.queue "b" = mutexS₀.queue "b") ∧
     ((release mutexS₀ "a").1.locks "b" = mutexS₀.locks "b") ∧
     ((release mutexS₀ "a").1.queue "b" = mutexS₀.queue "b")) :=
  ⟨by decide, mutex_fifo_and_key_independence mutexS₀ "a" "b" 9 (by decide)⟩

/-- C4: for a save call with a non-empty pending-event sequence (whose
before-persist emission succeeds), `save` throws `ConcurrencyError` exactly
when the store's `getAggregateVersion` differs from the first pending event's
version minus one, and when it throws, `saveEvents` was never invoked —
nothing was persisted. -/
theorem save_concurrency_check
    (aggregateName id : String) (d : AggregateData S P)
    (first : AggregateEvent P) (rest : List (AggregateEvent P))
    (beforeResults afterResults : List (Except ε Unit))
    (currentVersion : Int) (hasSnapshotStore : Bool)
    (hrec : d.recordedEvents = first :: rest)
    (hbefore : emitSeq beforeResults = Except.ok ()) :
    ((Repository.save aggregateName id d beforeResults afterResults
        currentVersion hasSnapshotStore).1 = SaveOutcome.concurrencyError ↔
      currentVersion ≠ first.version - 1) ∧
    (currentVersion ≠ first.version - 1 →
      (Repository.save aggregateName id d beforeResults afterResults
        currentVersion hasSnapshotStore).2.1.eventsSaved = none ∧
      (Repository.save aggregateName id d beforeResults afterResults
        currentVersion hasSnapshotStore).2.1.snapshotSaved = none) := by
  by_cases hv : currentVersion = first.version - 1 <;>
    simp [Repository.save, hrec, hbefore, hv]

/-- A concrete pending event at version `v`, for the save witnesses. -/
def evV (v : Int) : AggregateEvent Int :=
  { name := "E", payload := 1, occuredAt := 0, version := v }

/-- A concrete live record with one pending event at version `v`. -/
def dSaveAt (v : Int) : AggregateData Int Int :=
  { state := 0, version := v, recordedEvents := [evV v] }

/-- Witness for the C4 theorem: one pending event at version 3 while the
store reports version 7 — the save ends in `ConcurrencyError` and persists
nothing. -/
theorem save_concurrency_check_witness :
    (dSaveAt 3).recordedEvents = [evV 3] ∧
    emitSeq ([] : List (Except String Unit)) = Except.ok () ∧
    (((Repository.save "Cart" "cart-1" (dSaveAt 3)
        ([] : List (Except String Unit)) [] 7 true).1 =
          SaveOutcome.concurrencyError ↔ (7 : Int) ≠ (evV 3).version - 1) ∧
      ((7 : Int) ≠ (evV 3).version - 1 →
        (Repository.save "Cart" "cart-1" (dSaveAt 3)
          ([] : List (Except String Unit)) [] 7 true).2.1.eventsSaved = none ∧
        (Repository.save "Cart" "cart-1" (dSaveAt 3)
          ([] : List (Except String Unit)) [] 7 true).2.1.snapshotSaved = none)) :=
  ⟨rfl, rfl,
    save_concurrency_check "Cart" "cart-1" (dSaveAt 3) (evV 3) []
      ([] : List (Except String Unit)) [] 7 true rfl rfl⟩

/-- C5: for a save call with pending events, when any subscriber of the
before-persist (`eventsRecorded`) emission fails, `save` propagates the
emission failure to its caller and neither `saveEvents` nor `saveSnapshot`
is invoked on the store. -/
theorem save_aborts_on_before_persist_failure
    (aggregateName id : String) (d : AggregateData S P)
    (first : AggregateEvent P) (rest : List (AggregateEvent P))
    (beforeResults afterResults : List (Except ε Unit))
    (currentVersion : Int) (hasSnapshotStore : Bool) (e : ε)
    (hrec : d.recordedEvents = first :: rest)
    (hfail : Except.error e ∈ beforeResults) :
    ∃ e', emitSeq beforeResults = Except.error e' ∧
      (Repository.save aggregateName id d beforeResults afterResults
        currentVersion hasSnapshotStore).1 = SaveOutcome.emitError e' ∧
      (Repository.save aggregateName id d beforeResults afterResults
        currentVersion hasSnapshotStore).2.1.eventsSaved = none ∧
      (Repository.save aggregateName id d beforeResults afterResults
        currentVersion hasSnapshotStore).2.1.snapshotSaved = none := by
  obtain ⟨e', he'⟩ := emitSeq_error_of_mem hfail
  exact ⟨e', he', by simp [Repository.save, hrec, he']⟩

/-- The failing before-persist subscriber list used in the C5 witness. -/
def beforeBoom : List (Except String Unit) := [Except.error "boom"]

/-- Witness for the C5 theorem: a failing before-persist subscriber aborts a
save that would otherwise have passed the version check. -/
theorem save_aborts_on_before_persist_failure_witness :
    (dSaveAt 1).recordedEvents = [evV 1] ∧
    ((Except.error "boom" : Except String Unit) ∈ beforeBoom) ∧
    ∃ e', emitSeq beforeBoom = Except.error e' ∧
      (Repository.save "Cart" "cart-1" (dSaveAt 1)
        beforeBoom [] 0 true).1 = SaveOutcome.emitError e' ∧
      (Repository.save "Cart" "cart-1" (dSaveAt 1)
        beforeBoom [] 0 true).2.1.eventsSaved = none ∧
      (Repository.save "Cart" "cart-1" (dSaveAt 1)
        beforeBoom [] 0 true).2.1.snapshotSaved = none :=
  ⟨rfl, List.mem_singleton.mpr rfl,
    save_aborts_on_before_persist_failure "Cart" "cart-1" (dSaveAt 1) (evV 1) []
      beforeBoom [] 0 true "boom" rfl (List.mem_singleton.mpr rfl)⟩

/-- C6: for a save call that reaches the persistence step (non-empty pending
events, before-persist emission succeeded, version check passed), a failure
of the after-persist (`eventsPublished`) emission — which `save` does not
await — is never surfaced: `save` completes normally, the stream events stay
persisted, and the failed emission result is only the dropped promise. -/
theorem save_ignores_after_persist_failure
    (aggregateName id : String) (d : AggregateData S P)
    (first : AggregateEvent P) (rest : List (AggregateEvent P))
    (beforeResults afterResults : List (Except ε Unit))
    (currentVersion : Int) (hasSnapshotStore : Bool) (e : ε)
    (hrec : d.recordedEvents = first :: rest)
    (hbefore : emitSeq beforeResults = Except.ok ())
    (hversion : currentVersion = first.version - 1)
    (hafter : emitSeq afterResults = Except.error e) :
    (Repository.save aggregateName id d beforeResults afterResults
      currentVersion hasSnapshotStore).1 = SaveOutcome.completed ∧
    (Repository.save aggregateName id d beforeResults afterResults
      currentVersion hasSnapshotStore).2.1.eventsSaved =
      some ((first :: rest).map (aggregateEventToStreamEvent id aggregateName)) ∧
    (Repository.save aggregateName id d beforeResults afterResults
      currentVersion hasSnapshotStore).2.1.afterEmit =
      some (Except.error e) := by
  simp [Repository.save, hrec, hbefore, hversion, hafter]

/-- The failing after-persist subscriber list used in the C6 witness. -/
def afterBoom : List (Except String Unit) := [Except.error "late-boom"]

/-- Witness for the C6 theorem: a failing after-persist subscriber leaves a
successful save completed with its events persisted. -/
theorem save_ignores_after_persist_failure_witness :
    (dSaveAt 1).recordedEvents = [evV 1] ∧
    emitSeq ([] : List (Except String Unit)) = Except.ok () ∧
    ((0 : Int) = (evV 1).version - 1) ∧
    emitSeq afterBoom = Except.error "late-boom" ∧
    ((Repository.save "Cart" "cart-1" (dSaveAt 1)
        ([] : List (Except String Unit)) afterBoom 0 true).1 =
          SaveOutcome.completed ∧
      (Repository.save "Cart" "cart-1" (dSaveAt 1)
        ([] : List (Except String Unit)) afterBoom 0 true).2.1.eventsSaved =
        some ([evV 1].map (aggregateEventToStreamEvent "cart-1" "Cart")) ∧
      (Repository.save "Cart" "cart-1" (dSaveAt 1)
        ([] : List (Except String Unit)) afterBoom 0 true).2.1.afterEmit =
        some (Except.error "late-boom")) :=
  ⟨rfl, rfl, by decide, rfl,
    save_ignores_after_persist_failure "Cart" "cart-1" (dSaveAt 1) (evV 1) []
      ([] : List (Except String Unit)) afterBoom 0 true "late-boom"
      rfl rfl (by decide) rfl⟩

/-- The handler table of the concrete replay aggregate used in the C7
theorems: every event name is handled, by incrementing the state. -/
def replayHandlers₀ : String → Option (Int → IEvent Int → Int) :=
  fun _ => some fun s _ => s + 1

/-- The concrete replay aggregate options used in the C7 theorems. -/
def replayOptions₀ : AggregateOptionsM Int Int :=
  { name := "Agg", initialState := 0, events := some replayHandlers₀ }

/-- A concrete history event at version `v` for the C7 theorems. -/
def evAtV (v : Int) : AggregateEvent Int :=
  { name := "N", payload := 0, occuredAt := 0, version := v }

/-- C7, counterexample: the claim reads the two validations as independent —
replay "fails with the continuity error exactly when some adjacent pair of
the sorted versions does not increase by exactly 1".  The sorted history
`[2, 4]` with no snapshot has such a broken adjacent pair, yet replay fails
with the start-offset error (checked first), not the continuity error. -/
theorem replay_start_check_masks_continuity :
    loadAggregate replayOptions₀ [evAtV 2, evAtV 4] none =
      Except.error ReplayError.startOffset ∧
    areEventsContinous [evAtV 2, evAtV 4] = false ∧
    ReplayError.startOffset ≠ ReplayError.notContinuous := by
  refine ⟨?_, by decide, by decide⟩
  have hn : newEventsOf [evAtV 2, evAtV 4] (none : Option (ISnapshot Int)) =
      [evAtV 2, evAtV 4] :=
    newEventsOf_none_of_sorted (by decide)
  rw [loadAggregate_newEvents_cons replayOptions₀ replayHandlers₀
    (evAtV 2) (evAtV 2) [evAtV 4] [evAtV 4] none rfl hn]
  rw [if_pos (by decide)]

/-- C7, amended: for a non-empty filtered-and-sorted event list, replay
fails with the start-offset error exactly when the first sorted event's
version is not (snapshot version, or 0 with no snapshot) plus 1, and fails
with the continuity error exactly when the start-offset check passes and
some adjacent pair of the sorted versions does not increase by exactly 1
(the start-offset check runs first); in particular history versions
`[1, 2, 4]` fail the continuity check, and a history starting at version 2
with no snapshot fails the start-offset check. -/
theorem replay_error_characterization
    (options : AggregateOptionsM S P)
    (handlers : String → Option (S → IEvent P → S))
    (e₀ first : AggregateEvent P) (es rest : List (AggregateEvent P))
    (snapshot : Option (ISnapshot S))
    (hh : options.events = some handlers)
    (hnew : newEventsOf (e₀ :: es) snapshot = first :: rest) :
    (loadAggregate options (e₀ :: es) snapshot =
        Except.error ReplayError.startOffset ↔
      first.version ≠ snapshotBase snapshot + 1) ∧
    (loadAggregate options (e₀ :: es) snapshot =
        Except.error ReplayError.notContinuous ↔
      first.version = snapshotBase snapshot + 1 ∧
        areEventsContinous (first :: rest) = false) ∧
    loadAggregate replayOptions₀ [evAtV 1, evAtV 2, evAtV 4] none =
      Except.error ReplayError.notContinuous ∧
    loadAggregate replayOptions₀ [evAtV 2] none =
      Except.error ReplayError.startOffset := by
  rw [loadAggregate_newEvents_cons options handlers e₀ first es rest snapshot hh hnew]
  refine ⟨?_, ?_, ?_, ?_⟩
  · by_cases h1 : first.version = snapshotBase snapshot + 1
    · rw [if_neg (by simpa using h1)]
      by_cases h2 : areEventsContinous (first :: rest)
      · rw [if_neg (by simpa using h2)]
        constructor
        · intro heq
          exact absurd heq
            (applyEvents_ne_validation_errors handlers (first :: rest)
              (initialData options snapshot)).1
        · intro hne
          exact absurd h1 hne
      · rw [if_pos (by simpa using h2)]
        constructor
        · intro heq
          simp at heq
        · intro hne
          exact absurd h1 hne
    · rw [if_pos h1]
      simp [h1]
  · by_cases h1 : first.version = snapshotBase snapshot + 1
    · rw [if_neg (by simpa using h1)]
      by_cases h2 : areEventsContinous (first :: rest)
      · rw [if_neg (by simpa using h2)]
        constructor
        · intro heq
          exact absurd heq
            (applyEvents_ne_validation_errors handlers (first :: rest)
              (initialData options snapshot)).2
        · rintro ⟨-, hfalse⟩
          rw [h2] at hfalse
          cases hfalse
      · rw [if_pos (by simpa using h2)]
        constructor
        · intro _
          exact ⟨h1, by simpa using h2⟩
        · intro _
          rfl
    · rw [if_pos h1]
      constructor
      · intro heq
        simp at heq
      · rintro ⟨heq, -⟩
        exact absurd heq h1
  · have hn : newEventsOf [evAtV 1, evAtV 2, evAtV 4] (none : Option (ISnapshot Int)) =
        [evAtV 1, evAtV 2, evAtV 4] :=
      newEventsOf_none_of_sorted (by decide)
    rw [loadAggregate_newEvents_cons replayOptions₀ replayHandlers₀
      (evAtV 1) (evAtV 1) [evAtV 2, evAtV 4] [evAtV 2, evAtV 4] none rfl hn]
    rw [if_neg (by decide), if_pos (by decide)]
  · have hn : newEventsOf [evAtV 2] (none : Option (ISnapshot Int)) = [evAtV 2] :=
      newEventsOf_none_of_sorted (by decide)
    rw [loadAggregate_newEvents_cons replayOptions₀ replayHandlers₀
      (evAtV 2) (evAtV 2) [] [] none rfl hn]
    rw [if_pos (by decide)]

/-- Witness for the amended C7 theorem at the concrete sorted history
`[2, 4]` with no snapshot. -/
theorem replay_error_characterization_witness :
    replayOptions₀.events = some replayHandlers₀ ∧
    newEventsOf [evAtV 2, evAtV 4] (none : Option (ISnapshot Int)) =
      [evAtV 2, evAtV 4] ∧
    ((loadAggregate replayOptions₀ [evAtV 2, evAtV 4] none =
        Except.error ReplayError.startOffset ↔
      (evAtV 2).version ≠ snapshotBase (none : Option (ISnapshot Int)) + 1) ∧
    (loadAggregate replayOptions₀ [evAtV 2, evAtV 4] none =
        Except.error ReplayError.notContinuous ↔
      (evAtV 2).version = snapshotBase (none : Option (ISnapshot Int)) + 1 ∧
        areEventsContinous [evAtV 2, evAtV 4] = false) ∧
    loadAggregate replayOptions₀ [evAtV 1, evAtV 2, evAtV 4] none =
      Except.error ReplayError.notContinuous ∧
    loadAggregate replayOptions₀ [evAtV 2] none =
      Except.error ReplayError.startOffset) :=
  ⟨rfl,
    newEventsOf_none_of_sorted (by decide),
    replay_error_characterization replayOptions₀ replayHandlers₀
      (evAtV 2) (evAtV 2) [evAtV 4] [evAtV 4] none rfl
      (newEventsOf_none_of_sorted (by decide))⟩

/-- C8: replaying a history whose versions form the contiguous run
`base + 1, …, base + k` — where `base` is the snapshot version, or 0 with no
snapshot — succeeds (all handlers defined) and leaves the record's version at
`base + k`: `n` contiguous events from version 1 with no snapshot give
version `n`, a snapshot at `s` plus `k` contiguous subsequent events gives
`s + k`, and with zero subsequent events the version stays `s`. -/
theorem replay_version_is_base_plus_count
    (options : AggregateOptionsM S P)
    (handlers : String → Option (S → IEvent P → S))
    (events : List (AggregateEvent P)) (snapshot : Option (ISnapshot S))
    (k : Nat)
    (hh : options.events = some handlers)
    (hall : ∀ e ∈ events, (handlers e.name).isSome)
    (hvers : (events.map fun e => e.version) =
      versionSeq (snapshotBase snapshot + 1) k) :
    ∃ d, loadAggregate options events snapshot = Except.ok d ∧
      d.version = snapshotBase snapshot + k := by
  cases events with
  | nil =>
    cases k with
    | zero =>
      refine ⟨initialData options snapshot, loadAggregate_nil options snapshot, ?_⟩
      cases snapshot <;> simp [initialData, snapshotBase]
    | succ k => simp [versionSeq] at hvers
  | cons e₀ es =>
    cases k with
    | zero => simp [versionSeq] at hvers
    | succ k =>
      rw [List.map_cons] at hvers
      simp only [versionSeq] at hvers
      injection hvers with h0 hes
      have hmem : ∀ e ∈ e₀ :: es, snapshotBase snapshot + 1 ≤ e.version := by
        intro e he
        have hv : e.version ∈ (e₀ :: es).map fun e => e.version :=
          List.mem_map_of_mem _ he
        rw [List.map_cons, h0, hes] at hv
        exact le_of_mem_versionSeq (k + 1) _ _ hv
      have hfil : filteredEvents (e₀ :: es) snapshot = e₀ :: es := by
        cases snapshot with
        | none => rfl
        | some s =>
          simp only [filteredEvents]
          refine List.filter_eq_self.mpr fun a ha => ?_
          have := hmem a ha
          simp only [snapshotBase] at this
          simp only [decide_eq_true_eq]
          omega
      have hsorted : (e₀ :: es).Pairwise fun a b => a.version ≤ b.version := by
        have hp := versionSeq_pairwise (k + 1) (snapshotBase snapshot + 1)
        simp only [versionSeq] at hp
        rw [← hes, ← h0, ← List.map_cons] at hp
        exact (List.pairwise_map.mp hp).imp fun h => le_of_lt h
      have hnew : newEventsOf (e₀ :: es) snapshot = e₀ :: es := by
        unfold newEventsOf
        rw [hfil]
        exact mergeSort_byVersion_of_sorted hsorted
      have hchain : versionsChain ((e₀ :: es).map fun e => e.version) = true := by
        rw [List.map_cons, h0, hes]
        exact versionsChain_versionSeq (k + 1) (snapshotBase snapshot + 1)
      have hcont : areEventsContinous (e₀ :: es) = true :=
        areEventsContinous_of_chain hchain
      obtain ⟨d', hd', hv⟩ :=
        applyEvents_ok handlers (e₀ :: es) (initialData options snapshot) hall
      refine ⟨d', ?_, ?_⟩
      · rw [loadAggregate_newEvents_cons options handlers e₀ e₀ es es snapshot hh hnew]
        rw [if_neg (by simp [h0]), if_neg (by simp [hcont])]
        exact hd'
      · rw [List.map_cons, h0, hes] at hv
        have hlast := versionSeq_getLastD k (snapshotBase snapshot + 1)
          (initialData options snapshot).version
        simp only [versionSeq] at hlast
        rw [hv, hlast]
        push_cast
        ring

/-- Witness for the C8 theorem: replaying versions `[3, 4]` from a snapshot
at version 2 yields a record at version 4 = 2 + 2. -/
theorem replay_version_is_base_plus_count_witness :
    replayOptions₀.events = some replayHandlers₀ ∧
    (∀ e ∈ [evAtV 3, evAtV 4], (replayHandlers₀ e.name).isSome) ∧
    (([evAtV 3, evAtV 4].map fun e => e.version) =
      versionSeq (snapshotBase (some ⟨2, 5⟩ : Option (ISnapshot Int)) + 1) 2) ∧
    ∃ d, loadAggregate replayOptions₀ [evAtV 3, evAtV 4]
        (some ⟨2, 5⟩ : Option (ISnapshot Int)) = Except.ok d ∧
      d.version = snapshotBase (some ⟨2, 5⟩ : Option (ISnapshot Int)) + 2 :=
  ⟨rfl, by decide, by decide,
    replay_version_is_base_plus_count replayOptions₀ replayHandlers₀
      [evAtV 3, evAtV 4] (some ⟨2, 5⟩) 2 rfl (by decide) (by decide)⟩

end Modddel
